import Mathlib

/-!
Verification development for the K3 EIP76D TRNG driver
(`core/arch/arm/plat-k3/drivers/eip76d_trng.c`).

The driver is embedded shallowly:

* the memory-mapped device is a parameter `DevM σ`: a state type `σ`
  together with a read function (value returned by a 32-bit read at a
  byte offset), a state transition for reads, and a state transition
  for writes;
* every MMIO access is recorded in a trace of `Ev` events, so that
  properties about which registers are touched, in which order, can be
  stated about the trace;
* the unbounded polling loop of `eip76d_rng_read128` takes explicit
  fuel and returns `none` when the fuel runs out (modelling the
  blocking wait on a device whose READY bit never rises);
* the 16-byte union FIFO of `hw_get_random_bytes` is four 32-bit words
  plus a cursor, with byte extraction in little-endian order (the
  byte-punning of the C union on the driver's target architecture);
* the caller-supplied destination buffer is a total function
  `Nat → Nat` updated pointwise, so frame properties can be stated.

Machine integers are modelled as `Nat`; every value written by the
driver is a constant below `2^32` or the XOR of two device-supplied
register values.
-/

/-- One MMIO access: a 32-bit read (offset, value returned) or a
32-bit write (offset, value written). -/
inductive Ev where
  | read : Nat → Nat → Ev
  | write : Nat → Nat → Ev
deriving DecidableEq, Repr

/-- A model of the memory-mapped device: `readReg s off` is the value a
32-bit read at byte offset `off` returns in device state `s`;
`stepRead` and `stepWrite` are the device state transitions caused by a
read and a write. -/
structure DevM (σ : Type) where
  readReg : σ → Nat → Nat
  stepRead : σ → Nat → σ
  stepWrite : σ → Nat → Nat → σ

/-! Register byte offsets and bit constants from the driver source. -/

def RNG_OUTPUT_0 : Nat := 0x00
def RNG_OUTPUT_1 : Nat := 0x04
def RNG_OUTPUT_2 : Nat := 0x08
def RNG_OUTPUT_3 : Nat := 0x0C
def RNG_STATUS : Nat := 0x10
def RNG_READY : Nat := 1
def SHUTDOWN_OFLO : Nat := 2
def RNG_INTACK : Nat := 0x10
def RNG_CONTROL : Nat := 0x14
def ENABLE_TRNG : Nat := 1 <<< 10
def RNG_CONFIG : Nat := 0x18
def RNG_ALARMCNT : Nat := 0x1C
def RNG_FROENABLE : Nat := 0x20
def RNG_FRODETUNE : Nat := 0x24
def RNG_ALARMMASK : Nat := 0x28
def RNG_ALARMSTOP : Nat := 0x2C

def RNG_CONFIG_MIN_REFIL_CYCLES_SHIFT : Nat := 0
def RNG_CONFIG_MAX_REFIL_CYCLES_SHIFT : Nat := 16
def RNG_CONFIG_MIN_REFIL_CYCLES : Nat := 0x5
def RNG_CONFIG_MAX_REFIL_CYCLES : Nat := 0x22
def RNG_FRO_MASK : Nat := 0xffffff

def TEE_SUCCESS : Nat := 0

/-- `eip76d_rng_is_enabled`: read CONTROL and test the ENABLE_TRNG bit. -/
def eip76d_rng_is_enabled {σ : Type} (M : DevM σ) (s : σ) : Bool :=
  M.readReg s RNG_CONTROL &&& ENABLE_TRNG ≠ 0

/-- `eip76d_rng_init_seq`: program CONFIG, FRODETUNE, FROENABLE, then
set the enable bit in CONTROL.  Returns the new device state and the
trace of the four writes. -/
def eip76d_rng_init_seq {σ : Type} (M : DevM σ) (s : σ) : σ × List Ev :=
  let val := RNG_CONFIG_MIN_REFIL_CYCLES <<< RNG_CONFIG_MIN_REFIL_CYCLES_SHIFT |||
             RNG_CONFIG_MAX_REFIL_CYCLES <<< RNG_CONFIG_MAX_REFIL_CYCLES_SHIFT
  let s1 := M.stepWrite s RNG_CONFIG val
  let s2 := M.stepWrite s1 RNG_FRODETUNE 0x0
  let s3 := M.stepWrite s2 RNG_FROENABLE 0xffffff
  let s4 := M.stepWrite s3 RNG_CONTROL ENABLE_TRNG
  (s4, [Ev.write RNG_CONFIG val, Ev.write RNG_FRODETUNE 0x0,
        Ev.write RNG_FROENABLE 0xffffff, Ev.write RNG_CONTROL ENABLE_TRNG])

/-- The body of the SHUTDOWN_OFLO branch of the polling loop in
`eip76d_rng_read128`: snapshot ALARMSTOP and FRODETUNE, clear the alarm
state, de-tune the offending FROs, re-enable all FROs, and acknowledge
the shutdown-overflow event. -/
def froRecover {σ : Type} (M : DevM σ) (s : σ) : σ × List Ev :=
  let alarm := M.readReg s RNG_ALARMSTOP
  let s1 := M.stepRead s RNG_ALARMSTOP
  let tune := M.readReg s1 RNG_FRODETUNE
  let s2 := M.stepRead s1 RNG_FRODETUNE
  let s3 := M.stepWrite s2 RNG_ALARMMASK 0x0
  let s4 := M.stepWrite s3 RNG_ALARMSTOP 0x0
  let s5 := M.stepWrite s4 RNG_FRODETUNE (tune ^^^ alarm)
  let s6 := M.stepWrite s5 RNG_FROENABLE RNG_FRO_MASK
  let s7 := M.stepWrite s6 RNG_INTACK SHUTDOWN_OFLO
  (s7, [Ev.read RNG_ALARMSTOP alarm, Ev.read RNG_FRODETUNE tune,
        Ev.write RNG_ALARMMASK 0x0, Ev.write RNG_ALARMSTOP 0x0,
        Ev.write RNG_FRODETUNE (tune ^^^ alarm),
        Ev.write RNG_FROENABLE RNG_FRO_MASK,
        Ev.write RNG_INTACK SHUTDOWN_OFLO])

/-- The `while (!(STATUS & READY))` loop of `eip76d_rng_read128`, with
explicit fuel.  Each iteration reads STATUS; if READY is set the loop
exits, otherwise STATUS is read again and, when SHUTDOWN_OFLO is set,
the FRO recovery procedure runs before the next iteration. -/
def pollLoop {σ : Type} (M : DevM σ) : Nat → σ → Option (σ × List Ev)
  | 0, _ => none
  | fuel + 1, s =>
    let v1 := M.readReg s RNG_STATUS
    let s1 := M.stepRead s RNG_STATUS
    if v1 &&& RNG_READY ≠ 0 then
      some (s1, [Ev.read RNG_STATUS v1])
    else
      let v2 := M.readReg s1 RNG_STATUS
      let s2 := M.stepRead s1 RNG_STATUS
      let p := if v2 &&& SHUTDOWN_OFLO ≠ 0 then froRecover M s2 else (s2, [])
      match pollLoop M fuel p.1 with
      | none => none
      | some q =>
        some (q.1, Ev.read RNG_STATUS v1 :: Ev.read RNG_STATUS v2 :: (p.2 ++ q.2))

/-- The enable check at the top of `eip76d_rng_read128`: read CONTROL
and, when the enable bit is clear, run the bring-up sequence. -/
def enablePhase {σ : Type} (M : DevM σ) (s : σ) : σ × List Ev :=
  let c := M.readReg s RNG_CONTROL
  let s0 := M.stepRead s RNG_CONTROL
  if c &&& ENABLE_TRNG = 0 then
    let p := eip76d_rng_init_seq M s0
    (p.1, Ev.read RNG_CONTROL c :: p.2)
  else
    (s0, [Ev.read RNG_CONTROL c])

/-- `eip76d_rng_read128`: ensure the device is enabled, poll for
readiness (handling shutdown-overflow recovery inline), then read the
four OUTPUT words in order and acknowledge with a READY write to
INTACK.  Returns the final device state, the full MMIO trace of the
call, and the four words. -/
def eip76d_rng_read128 {σ : Type} (M : DevM σ) (fuel : Nat) (s : σ) :
    Option (σ × List Ev × Nat × Nat × Nat × Nat) :=
  let p := enablePhase M s
  match pollLoop M fuel p.1 with
  | none => none
  | some q =>
    let s2 := q.1
    let w0 := M.readReg s2 RNG_OUTPUT_0
    let s3 := M.stepRead s2 RNG_OUTPUT_0
    let w1 := M.readReg s3 RNG_OUTPUT_1
    let s4 := M.stepRead s3 RNG_OUTPUT_1
    let w2 := M.readReg s4 RNG_OUTPUT_2
    let s5 := M.stepRead s4 RNG_OUTPUT_2
    let w3 := M.readReg s5 RNG_OUTPUT_3
    let s6 := M.stepRead s5 RNG_OUTPUT_3
    let s7 := M.stepWrite s6 RNG_INTACK RNG_READY
    some (s7,
          p.2 ++ q.2 ++
            [Ev.read RNG_OUTPUT_0 w0, Ev.read RNG_OUTPUT_1 w1,
             Ev.read RNG_OUTPUT_2 w2, Ev.read RNG_OUTPUT_3 w3,
             Ev.write RNG_INTACK RNG_READY],
          w0, w1, w2, w3)

/-- The static `union { uint32_t val[4]; uint8_t byte[16]; } fifo`
together with the static cursor `fifo_pos`. -/
structure FifoState where
  w0 : Nat
  w1 : Nat
  w2 : Nat
  w3 : Nat
  pos : Nat
deriving DecidableEq, Repr

/-- Select one of four 32-bit words by index (index ≥ 3 selects the
last, matching `val[i]` for in-range indices). -/
def word4 (a b c d : Nat) : Nat → Nat
  | 0 => a
  | 1 => b
  | 2 => c
  | _ => d

/-- `fifo.byte[i]`: byte `i` of the union, i.e. bits `8*(i%4)+7 .. 8*(i%4)`
of word `i/4` — the little-endian layout of `uint32_t val[4]` as
`uint8_t byte[16]` on the driver's target architecture. -/
def fifoByte (f : FifoState) (i : Nat) : Nat :=
  (word4 f.w0 f.w1 f.w2 f.w3 (i / 4) >>> (8 * (i % 4))) % 256

/-- Initial value of the static FIFO: zero words, cursor 0. -/
def fifoInit : FifoState := ⟨0, 0, 0, 0, 0⟩

/-- The `while (buffer_pos < len)` loop of `hw_get_random_bytes`,
structurally recursive on the number of bytes still to produce.
`dest` is the caller's buffer as a total function updated pointwise at
`bpos`, the current `buffer_pos`.  When the cursor is 0 the FIFO is
refilled by `eip76d_rng_read128` (which may fail only by running out
of poll fuel). -/
def hwFetchLoop {σ : Type} (M : DevM σ) (fuel : Nat) :
    Nat → σ → FifoState → (Nat → Nat) → Nat →
    Option (σ × FifoState × (Nat → Nat) × List Ev)
  | 0, s, f, dest, _ => some (s, f, dest, [])
  | rem + 1, s, f, dest, bpos =>
    let refill : Option (σ × FifoState × List Ev) :=
      if f.pos = 0 then
        match eip76d_rng_read128 M fuel s with
        | none => none
        | some (s', tr, a0, a1, a2, a3) => some (s', ⟨a0, a1, a2, a3, f.pos⟩, tr)
      else
        some (s, f, [])
    match refill with
    | none => none
    | some (s1, f1, tr1) =>
      let b := fifoByte f1 f1.pos
      let dest1 := fun i => if i = bpos then b else dest i
      let f2 : FifoState := ⟨f1.w0, f1.w1, f1.w2, f1.w3, (f1.pos + 1) % 16⟩
      match hwFetchLoop M fuel rem s1 f2 dest1 (bpos + 1) with
      | none => none
      | some (s2, f3, d3, tr2) => some (s2, f3, d3, tr1 ++ tr2)

/-- `hw_get_random_bytes(buf, len)`: run the fetch loop from
`buffer_pos = 0` and return `TEE_SUCCESS` together with the final
device state, FIFO state, destination buffer and MMIO trace. -/
def hw_get_random_bytes {σ : Type} (M : DevM σ) (fuel : Nat) (s : σ)
    (f : FifoState) (dest : Nat → Nat) (len : Nat) :
    Option (Nat × σ × FifoState × (Nat → Nat) × List Ev) :=
  match hwFetchLoop M fuel len s f dest 0 with
  | none => none
  | some (s', f', d', tr) => some (TEE_SUCCESS, s', f', d', tr)

/-- `eip76d_rng_init`: store the result of the physical-to-virtual
translation (`0`, i.e. NULL, when the translation fails), run the
bring-up sequence, and return `TEE_SUCCESS`.  The translation result is
not checked.  Returns (result, stored base address, device state,
trace). -/
def eip76d_rng_init {σ : Type} (mapping : Option Nat) (M : DevM σ) (s : σ) :
    Nat × Nat × σ × List Ev :=
  let rngBase := match mapping with
    | some v => v
    | none => 0
  let p := eip76d_rng_init_seq M s
  (TEE_SUCCESS, rngBase, p.1, p.2)

/-! ## Concrete device models -/

/-- Stored register file for a mock device whose writes simply latch
values: used to observe the register state the bring-up sequence
leaves behind. -/
structure Regs where
  output0 : Nat
  output1 : Nat
  output2 : Nat
  output3 : Nat
  status : Nat
  control : Nat
  config : Nat
  alarmcnt : Nat
  froenable : Nat
  frodetune : Nat
  alarmmask : Nat
  alarmstop : Nat
deriving DecidableEq, Repr

/-- Mock device over `Regs`: reads return the stored value, writes
latch it (a write at offset 0x10 is an INTACK acknowledgement, not a
store into STATUS, so it leaves the stored registers unchanged). -/
def regsDev : DevM Regs where
  readReg := fun r off =>
    if off = RNG_OUTPUT_0 then r.output0
    else if off = RNG_OUTPUT_1 then r.output1
    else if off = RNG_OUTPUT_2 then r.output2
    else if off = RNG_OUTPUT_3 then r.output3
    else if off = RNG_STATUS then r.status
    else if off = RNG_CONTROL then r.control
    else if off = RNG_CONFIG then r.config
    else if off = RNG_ALARMCNT then r.alarmcnt
    else if off = RNG_FROENABLE then r.froenable
    else if off = RNG_FRODETUNE then r.frodetune
    else if off = RNG_ALARMMASK then r.alarmmask
    else if off = RNG_ALARMSTOP then r.alarmstop
    else 0
  stepRead := fun r _ => r
  stepWrite := fun r off v =>
    if off = RNG_CONTROL then { r with control := v }
    else if off = RNG_CONFIG then { r with config := v }
    else if off = RNG_ALARMCNT then { r with alarmcnt := v }
    else if off = RNG_FROENABLE then { r with froenable := v }
    else if off = RNG_FRODETUNE then { r with frodetune := v }
    else if off = RNG_ALARMMASK then { r with alarmmask := v }
    else if off = RNG_ALARMSTOP then { r with alarmstop := v }
    else r

/-- An all-zero register file. -/
def regs0 : Regs := ⟨0, 0, 0, 0, 0, 0, 0, 0, 0, 0, 0, 0⟩

/-- Mock device that is always enabled and always READY, and serves
block `d` of the entropy stream (`stream d k` = OUTPUT word `k` of the
`d`-th 128-bit block).  The device state is the block counter, which
advances exactly on the INTACK acknowledgement of READY — the event on
which the hardware produces its next sample. -/
def streamDev (stream : Nat → Nat → Nat) : DevM Nat where
  readReg := fun d off =>
    if off = RNG_OUTPUT_0 then stream d 0
    else if off = RNG_OUTPUT_1 then stream d 1
    else if off = RNG_OUTPUT_2 then stream d 2
    else if off = RNG_OUTPUT_3 then stream d 3
    else if off = RNG_STATUS then RNG_READY
    else if off = RNG_CONTROL then ENABLE_TRNG
    else 0
  stepRead := fun d _ => d
  stepWrite := fun d off v =>
    if off = RNG_INTACK ∧ v = RNG_READY then d + 1 else d

/-- The all-zero entropy stream. -/
def zeroStream : Nat → Nat → Nat := fun _ _ => 0

/-- Mock device for the shutdown-overflow scenario: the state counts
STATUS reads.  The first two STATUS reads return SHUTDOWN_OFLO (not
READY), afterwards STATUS reads return READY.  ALARMSTOP reads 0xA5
and FRODETUNE reads 0. -/
def ofloDev : DevM Nat where
  readReg := fun n off =>
    if off = RNG_STATUS then (if n < 2 then SHUTDOWN_OFLO else RNG_READY)
    else if off = RNG_ALARMSTOP then 0xA5
    else if off = RNG_FRODETUNE then 0
    else if off = RNG_CONTROL then ENABLE_TRNG
    else 0
  stepRead := fun n off => if off = RNG_STATUS then n + 1 else n
  stepWrite := fun n _ _ => n

/-! ## Trace observations -/

/-- Count the events of a trace satisfying `p`. -/
def countEv (p : Ev → Bool) : List Ev → Nat
  | [] => 0
  | e :: tr => (if p e then 1 else 0) + countEv p tr

/-- The event ending one 128-bit block-read: the write of the READY
bit to INTACK. -/
def isBlockAck : Ev → Bool
  | Ev.write off v => off == RNG_INTACK && v == RNG_READY
  | _ => false

/-- A read of one of the four OUTPUT registers. -/
def isOutputRead : Ev → Bool
  | Ev.read off _ => off == RNG_OUTPUT_0 || off == RNG_OUTPUT_1 ||
                     off == RNG_OUTPUT_2 || off == RNG_OUTPUT_3
  | _ => false

/-- Number of FIFO refills (block-reads) performed when fetching `n`
bytes starting from cursor `c`: one per loop iteration whose cursor
is 0. -/
def refillCount : Nat → Nat → Nat
  | _, 0 => 0
  | c, n + 1 => (if c = 0 then 1 else 0) + refillCount ((c + 1) % 16) n

/-! ## The entropy stream seen bytewise -/

/-- Byte `g` of the entropy stream: byte `g % 16` (little-endian) of
128-bit block `g / 16`. -/
def entropyByte (stream : Nat → Nat → Nat) (g : Nat) : Nat :=
  (word4 (stream (g / 16) 0) (stream (g / 16) 1)
         (stream (g / 16) 2) (stream (g / 16) 3) ((g % 16) / 4) >>>
     (8 * (g % 4))) % 256

/-- The driver's FIFO is well-formed with respect to a `streamDev`
block counter `d`: the cursor is in range and, when the cursor is
nonzero, the buffered words are those of the last block read
(block `d - 1`). -/
def fifoWf (stream : Nat → Nat → Nat) (d : Nat) (f : FifoState) : Prop :=
  f.pos < 16 ∧
  (f.pos ≠ 0 → 1 ≤ d ∧ f.w0 = stream (d - 1) 0 ∧ f.w1 = stream (d - 1) 1 ∧
    f.w2 = stream (d - 1) 2 ∧ f.w3 = stream (d - 1) 3)

instance (stream : Nat → Nat → Nat) (d : Nat) (f : FifoState) :
    Decidable (fifoWf stream d f) := by
  unfold fifoWf
  infer_instance

/-- Index into the entropy stream of the next byte the driver will
hand out: with a stale FIFO (cursor 0) it is the first byte of the not
yet read block `d`; otherwise it is byte `pos` of block `d - 1`. -/
def gpos (d : Nat) (f : FifoState) : Nat :=
  if f.pos = 0 then 16 * d else 16 * (d - 1) + f.pos

/-! ## Unfolding equations for the fetch loop -/

lemma hwFetchLoop_zero {σ : Type} (M : DevM σ) (fuel : Nat) (s : σ)
    (f : FifoState) (dest : Nat → Nat) (bpos : Nat) :
    hwFetchLoop M fuel 0 s f dest bpos = some (s, f, dest, []) := rfl

lemma hwFetchLoop_succ_zero {σ : Type} (M : DevM σ) (fuel rem : Nat) (s : σ)
    (f : FifoState) (dest : Nat → Nat) (bpos : Nat) (h0 : f.pos = 0) :
    hwFetchLoop M fuel (rem + 1) s f dest bpos =
      match eip76d_rng_read128 M fuel s with
      | none => none
      | some (s', tr, a0, a1, a2, a3) =>
        match hwFetchLoop M fuel rem s' ⟨a0, a1, a2, a3, 1⟩
            (fun i => if i = bpos then fifoByte ⟨a0, a1, a2, a3, 0⟩ 0 else dest i)
            (bpos + 1) with
        | none => none
        | some (s2, f3, d3, tr2) => some (s2, f3, d3, tr ++ tr2) := by
  obtain ⟨w0, w1, w2, w3, p⟩ := f
  simp only at h0
  subst h0
  rcases h : eip76d_rng_read128 M fuel s with _ | ⟨s', tr, a0, a1, a2, a3⟩ <;>
    simp [hwFetchLoop, h]

lemma hwFetchLoop_succ_pos {σ : Type} (M : DevM σ) (fuel rem : Nat) (s : σ)
    (f : FifoState) (dest : Nat → Nat) (bpos : Nat) (h0 : f.pos ≠ 0) :
    hwFetchLoop M fuel (rem + 1) s f dest bpos =
      match hwFetchLoop M fuel rem s ⟨f.w0, f.w1, f.w2, f.w3, (f.pos + 1) % 16⟩
          (fun i => if i = bpos then fifoByte f f.pos else dest i) (bpos + 1) with
      | none => none
      | some (s2, f3, d3, tr2) => some (s2, f3, d3, tr2) := by
  simp only [hwFetchLoop, if_neg h0]
  obtain ⟨w0, w1, w2, w3, p⟩ := f
  rcases h : hwFetchLoop M fuel rem s ⟨w0, w1, w2, w3, (p + 1) % 16⟩
      (fun i => if i = bpos then fifoByte ⟨w0, w1, w2, w3, p⟩ p else dest i)
      (bpos + 1) with _ | ⟨s2, f3, d3, tr2⟩ <;> simp

/-! ## C2: mapping failure at init -/

/-- C2: the claim says a failed physical-to-virtual translation makes
`eip76d_rng_init` return a failure indicator.  The code ignores the
translation result: with a failed mapping it stores the NULL base (0)
and still returns `TEE_SUCCESS`. -/
theorem c2_init_ignores_mapping_failure :
    (eip76d_rng_init none regsDev regs0).1 = TEE_SUCCESS ∧
    (eip76d_rng_init none regsDev regs0).2.1 = 0 := ⟨rfl, rfl⟩

/-! ## C5: register state after bring-up, and idempotence -/

/-- C5: after `eip76d_rng_init` completes (on the latching mock device,
from any starting register file), CONTROL has bit 10 set with the
startup-cycle field (bits 31:16) zero, CONFIG holds min-refill = 0x05
(bits 7:0) and max-refill = 0x22 (bits 31:16), FRODETUNE is 0 and
FROENABLE is 0x00FFFFFF; and running the bring-up sequence a second
time yields the same final register state. -/
theorem c5_init_register_state (mapping : Option Nat) (r : Regs) :
    (eip76d_rng_init mapping regsDev r).2.2.1.control &&& ENABLE_TRNG ≠ 0 ∧
    (eip76d_rng_init mapping regsDev r).2.2.1.control >>> 16 = 0 ∧
    (eip76d_rng_init mapping regsDev r).2.2.1.config &&& 0xff =
      RNG_CONFIG_MIN_REFIL_CYCLES ∧
    (eip76d_rng_init mapping regsDev r).2.2.1.config >>> 16 =
      RNG_CONFIG_MAX_REFIL_CYCLES ∧
    (eip76d_rng_init mapping regsDev r).2.2.1.frodetune = 0 ∧
    (eip76d_rng_init mapping regsDev r).2.2.1.froenable = RNG_FRO_MASK ∧
    (eip76d_rng_init_seq regsDev (eip76d_rng_init_seq regsDev r).1).1 =
      (eip76d_rng_init_seq regsDev r).1 := by
  have hseq : ∀ r' : Regs, (eip76d_rng_init_seq regsDev r').1 =
      { r' with config := 0x220005, froenable := 0xffffff, frodetune := 0,
                control := 1024 } := fun _ => rfl
  refine ⟨?_, ?_, ?_, ?_, ?_, ?_, ?_⟩
  · show (1024 : Nat) &&& ENABLE_TRNG ≠ 0
    decide
  · show (1024 : Nat) >>> 16 = 0
    decide
  · show (0x220005 : Nat) &&& 0xff = RNG_CONFIG_MIN_REFIL_CYCLES
    decide
  · show (0x220005 : Nat) >>> 16 = RNG_CONFIG_MAX_REFIL_CYCLES
    decide
  · show (0 : Nat) = 0
    rfl
  · show (0xffffff : Nat) = RNG_FRO_MASK
    decide
  · rw [hseq r,
        hseq { r with config := 0x220005, froenable := 0xffffff, frodetune := 0,
                      control := 1024 }]

/-! ## C8: zero-length fetch and the always-success data path -/

/-- C8: a zero-length `hw_get_random_bytes` returns `TEE_SUCCESS`
having performed no device access (empty MMIO trace, device state
unchanged) and leaves the FIFO buffer, cursor and destination
untouched; and every completed `hw_get_random_bytes` call returns
`TEE_SUCCESS`. -/
theorem c8_zero_length_and_success {σ : Type} (M : DevM σ) (fuel : Nat)
    (s : σ) (f : FifoState) (dest : Nat → Nat) :
    hw_get_random_bytes M fuel s f dest 0 = some (TEE_SUCCESS, s, f, dest, []) ∧
    (∀ len res, hw_get_random_bytes M fuel s f dest len = some res →
      res.1 = TEE_SUCCESS) := by
  refine ⟨rfl, ?_⟩
  intro len res h
  unfold hw_get_random_bytes at h
  rcases hl : hwFetchLoop M fuel len s f dest 0 with _ | ⟨s', f', d', tr⟩ <;>
    rw [hl] at h
  · exact Option.noConfusion h
  · injection h with h'
    rw [← h']

/-! ## Counting events in traces -/

lemma countEv_append (p : Ev → Bool) :
    ∀ l1 l2 : List Ev, countEv p (l1 ++ l2) = countEv p l1 + countEv p l2 := by
  intro l1 l2
  induction l1 with
  | nil => simp [countEv]
  | cons e l ih => simp [countEv, ih]; omega

lemma isBlockAck_statusRead (v : Nat) :
    isBlockAck (Ev.read RNG_STATUS v) = false := rfl

lemma isOutputRead_statusRead (v : Nat) :
    isOutputRead (Ev.read RNG_STATUS v) = false := rfl

lemma countAck_froRecover {σ : Type} (M : DevM σ) (s : σ) :
    countEv isBlockAck (froRecover M s).2 = 0 := rfl

lemma countOut_froRecover {σ : Type} (M : DevM σ) (s : σ) :
    countEv isOutputRead (froRecover M s).2 = 0 := rfl

lemma countAck_enablePhase {σ : Type} (M : DevM σ) (s : σ) :
    countEv isBlockAck (enablePhase M s).2 = 0 := by
  simp only [enablePhase]
  split <;> rfl

lemma countOut_enablePhase {σ : Type} (M : DevM σ) (s : σ) :
    countEv isOutputRead (enablePhase M s).2 = 0 := by
  simp only [enablePhase]
  split <;> rfl

/-! ## The polling loop: shape of a completed poll trace -/

/-- A completed poll ends with the STATUS read that observed READY,
performs no OUTPUT reads, and never acknowledges READY itself. -/
lemma pollLoop_spec {σ : Type} (M : DevM σ) :
    ∀ fuel (s : σ) res, pollLoop M fuel s = some res →
      ∃ pre v, res.2 = pre ++ [Ev.read RNG_STATUS v] ∧ v &&& RNG_READY ≠ 0 ∧
        countEv isBlockAck res.2 = 0 ∧ countEv isOutputRead res.2 = 0 := by
  intro fuel
  induction fuel with
  | zero =>
    intro s res h
    exact Option.noConfusion h
  | succ n ih =>
    intro s res h
    simp only [pollLoop] at h
    split at h
    · rename_i hv
      injection h with h'
      subst h'
      exact ⟨[], M.readReg s RNG_STATUS, rfl, hv, rfl, rfl⟩
    · rename_i hv
      by_cases hc : M.readReg (M.stepRead s RNG_STATUS) RNG_STATUS &&&
          SHUTDOWN_OFLO ≠ 0
      · rw [if_pos hc] at h
        split at h
        · exact Option.noConfusion h
        · rename_i q heq
          injection h with h'
          subst h'
          obtain ⟨pre, v, hpre, hready, hack, hout⟩ := ih _ _ heq
          refine ⟨Ev.read RNG_STATUS (M.readReg s RNG_STATUS) ::
                    Ev.read RNG_STATUS
                      (M.readReg (M.stepRead s RNG_STATUS) RNG_STATUS) ::
                    ((froRecover M (M.stepRead (M.stepRead s RNG_STATUS)
                        RNG_STATUS)).2 ++ pre), v, ?_, hready, ?_, ?_⟩
          · show Ev.read RNG_STATUS _ :: Ev.read RNG_STATUS _ ::
                ((froRecover M _).2 ++ q.2) = _
            rw [hpre]
            simp [List.append_assoc]
          · show countEv isBlockAck (Ev.read RNG_STATUS _ ::
                Ev.read RNG_STATUS _ :: ((froRecover M _).2 ++ q.2)) = 0
            simp [countEv, countEv_append, isBlockAck_statusRead,
                  countAck_froRecover, hack, isBlockAck, RNG_ALARMSTOP,
                  RNG_FRODETUNE, RNG_ALARMMASK, RNG_FROENABLE, RNG_INTACK,
                  RNG_READY, SHUTDOWN_OFLO, RNG_FRO_MASK]
          · show countEv isOutputRead (Ev.read RNG_STATUS _ ::
                Ev.read RNG_STATUS _ :: ((froRecover M _).2 ++ q.2)) = 0
            simp [countEv, countEv_append, isOutputRead_statusRead,
                  countOut_froRecover, hout, isOutputRead, RNG_ALARMSTOP,
                  RNG_FRODETUNE, RNG_OUTPUT_0, RNG_OUTPUT_1, RNG_OUTPUT_2,
                  RNG_OUTPUT_3, RNG_STATUS]
      · rw [if_neg hc] at h
        split at h
        · exact Option.noConfusion h
        · rename_i q heq
          injection h with h'
          subst h'
          obtain ⟨pre, v, hpre, hready, hack, hout⟩ := ih _ _ heq
          refine ⟨Ev.read RNG_STATUS (M.readReg s RNG_STATUS) ::
                    Ev.read RNG_STATUS
                      (M.readReg (M.stepRead s RNG_STATUS) RNG_STATUS) :: pre,
                  v, ?_, hready, ?_, ?_⟩
          · show Ev.read RNG_STATUS _ :: Ev.read RNG_STATUS _ ::
                ([] ++ q.2) = _
            rw [hpre]
            simp
          · show countEv isBlockAck (Ev.read RNG_STATUS _ ::
                Ev.read RNG_STATUS _ :: ([] ++ q.2)) = 0
            simp [countEv, isBlockAck_statusRead, hack]
          · show countEv isOutputRead (Ev.read RNG_STATUS _ ::
                Ev.read RNG_STATUS _ :: ([] ++ q.2)) = 0
            simp [countEv, isOutputRead_statusRead, hout]

lemma countAck_outputs (w0 w1 w2 w3 : Nat) :
    countEv isBlockAck
      [Ev.read RNG_OUTPUT_0 w0, Ev.read RNG_OUTPUT_1 w1,
       Ev.read RNG_OUTPUT_2 w2, Ev.read RNG_OUTPUT_3 w3,
       Ev.write RNG_INTACK RNG_READY] = 1 := rfl

/-- Shape of a completed `eip76d_rng_read128` trace: some poll activity
with no OUTPUT reads, then the READY-observing STATUS read, the four
OUTPUT reads in order, and a single READY acknowledgement to INTACK. -/
lemma read128_spec {σ : Type} (M : DevM σ) (fuel : Nat) (s : σ)
    (res : σ × List Ev × Nat × Nat × Nat × Nat)
    (h : eip76d_rng_read128 M fuel s = some res) :
    ∃ pre v, res.2.1 = pre ++
        [Ev.read RNG_STATUS v,
         Ev.read RNG_OUTPUT_0 res.2.2.1, Ev.read RNG_OUTPUT_1 res.2.2.2.1,
         Ev.read RNG_OUTPUT_2 res.2.2.2.2.1, Ev.read RNG_OUTPUT_3 res.2.2.2.2.2,
         Ev.write RNG_INTACK RNG_READY] ∧
      v &&& RNG_READY ≠ 0 ∧ countEv isOutputRead pre = 0 ∧
      countEv isBlockAck res.2.1 = 1 := by
  simp only [eip76d_rng_read128] at h
  split at h
  · exact Option.noConfusion h
  · rename_i q heq
    injection h with h'
    subst h'
    obtain ⟨pre, v, hpre, hready, hack, hout⟩ := pollLoop_spec M fuel _ q heq
    have hpre0 : countEv isOutputRead pre = 0 := by
      rw [hpre, countEv_append] at hout
      simpa [countEv, isOutputRead_statusRead] using hout
    refine ⟨(enablePhase M s).2 ++ pre, v, ?_, hready, ?_, ?_⟩
    · show (enablePhase M s).2 ++ q.2 ++ _ = _
      rw [hpre]
      simp [List.append_assoc]
    · simp [countEv_append, countOut_enablePhase, hpre0]
    · show countEv isBlockAck ((enablePhase M s).2 ++ q.2 ++ _) = 1
      simp [countEv_append, countAck_enablePhase, hack, countAck_outputs]

/-- C3: every completed block-read, once READY is observed (the last
STATUS read of the poll, whose value has the READY bit set), performs
exactly the four OUTPUT reads at offsets 0x00, 0x04, 0x08, 0x0C in
that order, immediately followed by exactly one write of the READY bit
to INTACK; no OUTPUT read occurs anywhere else in the call. -/
theorem c3_read128_drains_then_acks {σ : Type} (M : DevM σ) (fuel : Nat)
    (s s' : σ) (tr : List Ev) (w0 w1 w2 w3 : Nat)
    (h : eip76d_rng_read128 M fuel s = some (s', tr, w0, w1, w2, w3)) :
    ∃ pre v, tr = pre ++
        [Ev.read RNG_STATUS v,
         Ev.read RNG_OUTPUT_0 w0, Ev.read RNG_OUTPUT_1 w1,
         Ev.read RNG_OUTPUT_2 w2, Ev.read RNG_OUTPUT_3 w3,
         Ev.write RNG_INTACK RNG_READY] ∧
      v &&& RNG_READY ≠ 0 ∧ countEv isOutputRead pre = 0 ∧
      countEv isBlockAck tr = 1 :=
  read128_spec M fuel s (s', tr, w0, w1, w2, w3) h

/-- Witness for C3 at a concrete always-ready device. -/
theorem c3_read128_drains_then_acks_witness :
    ∃ (s' : Nat) (tr : List Ev) (w0 w1 w2 w3 : Nat),
      eip76d_rng_read128 (streamDev zeroStream) 1 0 =
        some (s', tr, w0, w1, w2, w3) ∧
      ∃ pre v, tr = pre ++
          [Ev.read RNG_STATUS v,
           Ev.read RNG_OUTPUT_0 w0, Ev.read RNG_OUTPUT_1 w1,
           Ev.read RNG_OUTPUT_2 w2, Ev.read RNG_OUTPUT_3 w3,
           Ev.write RNG_INTACK RNG_READY] ∧
        v &&& RNG_READY ≠ 0 ∧ countEv isOutputRead pre = 0 ∧
        countEv isBlockAck tr = 1 :=
  ⟨_, _, _, _, _, _, rfl,
   c3_read128_drains_then_acks (streamDev zeroStream) 1 0 _ _ _ _ _ _ rfl⟩

/-- C4: when the poll observes SHUTDOWN_OFLO (first STATUS read not
READY, second STATUS read with bit 1 set), the loop runs the FRO
recovery before polling again, and the recovery trace is, in order:
read ALARMSTOP (value `a`), read FRODETUNE (value `t`), write
ALARMMASK = 0, write ALARMSTOP = 0, write FRODETUNE = `t XOR a`, write
FROENABLE = 0x00FFFFFF, write INTACK = SHUTDOWN_OFLO (bit 1). -/
theorem c4_fro_recovery_writes {σ : Type} (M : DevM σ) (fuel : Nat) (s : σ)
    (h1 : M.readReg s RNG_STATUS &&& RNG_READY = 0)
    (h2 : M.readReg (M.stepRead s RNG_STATUS) RNG_STATUS &&&
      SHUTDOWN_OFLO ≠ 0) :
    pollLoop M (fuel + 1) s =
      (match pollLoop M fuel
          (froRecover M (M.stepRead (M.stepRead s RNG_STATUS) RNG_STATUS)).1 with
       | none => none
       | some q =>
         some (q.1,
           Ev.read RNG_STATUS (M.readReg s RNG_STATUS) ::
           Ev.read RNG_STATUS (M.readReg (M.stepRead s RNG_STATUS) RNG_STATUS) ::
           ((froRecover M (M.stepRead (M.stepRead s RNG_STATUS) RNG_STATUS)).2 ++
             q.2))) ∧
    (froRecover M (M.stepRead (M.stepRead s RNG_STATUS) RNG_STATUS)).2 =
      [Ev.read RNG_ALARMSTOP
         (M.readReg (M.stepRead (M.stepRead s RNG_STATUS) RNG_STATUS)
           RNG_ALARMSTOP),
       Ev.read RNG_FRODETUNE
         (M.readReg
           (M.stepRead (M.stepRead (M.stepRead s RNG_STATUS) RNG_STATUS)
             RNG_ALARMSTOP) RNG_FRODETUNE),
       Ev.write RNG_ALARMMASK 0,
       Ev.write RNG_ALARMSTOP 0,
       Ev.write RNG_FRODETUNE
         (M.readReg
            (M.stepRead (M.stepRead (M.stepRead s RNG_STATUS) RNG_STATUS)
              RNG_ALARMSTOP) RNG_FRODETUNE ^^^
          M.readReg (M.stepRead (M.stepRead s RNG_STATUS) RNG_STATUS)
            RNG_ALARMSTOP),
       Ev.write RNG_FROENABLE RNG_FRO_MASK,
       Ev.write RNG_INTACK SHUTDOWN_OFLO] := by
  constructor
  · simp only [pollLoop]
    rw [if_neg (by simp [h1]), if_pos h2]
  · rfl

/-- Witness for C4: a device that reports SHUTDOWN_OFLO twice with
ALARMSTOP = 0xA5 and FRODETUNE = 0; the driver writes FRODETUNE = 0xA5,
FROENABLE = 0x00FFFFFF and INTACK = bit 1, then polls to READY. -/
theorem c4_fro_recovery_writes_witness :
    pollLoop ofloDev 2 0 =
      some (3, [Ev.read RNG_STATUS 2, Ev.read RNG_STATUS 2,
                Ev.read RNG_ALARMSTOP 0xA5, Ev.read RNG_FRODETUNE 0,
                Ev.write RNG_ALARMMASK 0, Ev.write RNG_ALARMSTOP 0,
                Ev.write RNG_FRODETUNE 0xA5,
                Ev.write RNG_FROENABLE RNG_FRO_MASK,
                Ev.write RNG_INTACK SHUTDOWN_OFLO,
                Ev.read RNG_STATUS 1]) := by
  rw [(c4_fro_recovery_writes ofloDev 1 0 (by decide) (by decide)).1]
  decide

/-! ## Cursor, frame and refill-count lemmas for the fetch loop -/

/-- The cursor advances by one modulo 16 per byte produced. -/
lemma hwFetchLoop_pos {σ : Type} (M : DevM σ) (fuel : Nat) :
    ∀ rem (s : σ) f dest bpos res, f.pos < 16 →
      hwFetchLoop M fuel rem s f dest bpos = some res →
      res.2.1.pos = (f.pos + rem) % 16 := by
  intro rem
  induction rem with
  | zero =>
    intro s f dest bpos res hf h
    rw [hwFetchLoop_zero] at h
    injection h with h'
    subst h'
    show f.pos = (f.pos + 0) % 16
    omega
  | succ n ih =>
    intro s f dest bpos res hf h
    by_cases h0 : f.pos = 0
    · rw [hwFetchLoop_succ_zero M fuel n s f dest bpos h0] at h
      split at h
      · exact Option.noConfusion h
      · split at h
        · exact Option.noConfusion h
        · rename_i _ s' tr a0 a1 a2 a3 hr _ s2 f3 d3 tr2 hrec
          injection h with h'
          subst h'
          have hp : f3.pos = (1 + n) % 16 :=
            ih s' ⟨a0, a1, a2, a3, 1⟩ _ (bpos + 1) (s2, f3, d3, tr2)
              (by show (1 : Nat) < 16; omega) hrec
          show f3.pos = (f.pos + (n + 1)) % 16
          omega
    · rw [hwFetchLoop_succ_pos M fuel n s f dest bpos h0] at h
      split at h
      · exact Option.noConfusion h
      · rename_i s2 f3 d3 tr2 hrec
        injection h with h'
        subst h'
        have hp : f3.pos = ((f.pos + 1) % 16 + n) % 16 :=
          ih s ⟨f.w0, f.w1, f.w2, f.w3, (f.pos + 1) % 16⟩ _ (bpos + 1)
            (s2, f3, d3, tr2) (by show (f.pos + 1) % 16 < 16; omega) hrec
        show f3.pos = (f.pos + (n + 1)) % 16
        omega

/-- The fetch loop writes only destination indices `[bpos, bpos+rem)`. -/
lemma hwFetchLoop_frame {σ : Type} (M : DevM σ) (fuel : Nat) :
    ∀ rem (s : σ) f dest bpos res,
      hwFetchLoop M fuel rem s f dest bpos = some res →
      ∀ i, i < bpos ∨ bpos + rem ≤ i → res.2.2.1 i = dest i := by
  intro rem
  induction rem with
  | zero =>
    intro s f dest bpos res h i _
    rw [hwFetchLoop_zero] at h
    injection h with h'
    subst h'
    rfl
  | succ n ih =>
    intro s f dest bpos res h i hi
    by_cases h0 : f.pos = 0
    · rw [hwFetchLoop_succ_zero M fuel n s f dest bpos h0] at h
      split at h
      · exact Option.noConfusion h
      · split at h
        · exact Option.noConfusion h
        · rename_i _ s' tr a0 a1 a2 a3 hr _ s2 f3 d3 tr2 hrec
          injection h with h'
          subst h'
          have hd : d3 i = (if i = bpos then fifoByte ⟨a0, a1, a2, a3, 0⟩ 0
              else dest i) :=
            ih s' ⟨a0, a1, a2, a3, 1⟩ _ (bpos + 1) (s2, f3, d3, tr2) hrec i
              (by omega)
          rw [if_neg (by omega)] at hd
          exact hd
    · rw [hwFetchLoop_succ_pos M fuel n s f dest bpos h0] at h
      split at h
      · exact Option.noConfusion h
      · rename_i s2 f3 d3 tr2 hrec
        injection h with h'
        subst h'
        have hd : d3 i = (if i = bpos then fifoByte f f.pos else dest i) :=
          ih s ⟨f.w0, f.w1, f.w2, f.w3, (f.pos + 1) % 16⟩ _ (bpos + 1)
            (s2, f3, d3, tr2) hrec i (by omega)
        rw [if_neg (by omega)] at hd
        exact hd

/-- Each completed fetch-loop run performs one block-read per loop
iteration that starts with cursor 0. -/
lemma hwFetchLoop_count {σ : Type} (M : DevM σ) (fuel : Nat) :
    ∀ rem (s : σ) f dest bpos res,
      hwFetchLoop M fuel rem s f dest bpos = some res →
      countEv isBlockAck res.2.2.2 = refillCount f.pos rem := by
  intro rem
  induction rem with
  | zero =>
    intro s f dest bpos res h
    rw [hwFetchLoop_zero] at h
    injection h with h'
    subst h'
    rfl
  | succ n ih =>
    intro s f dest bpos res h
    by_cases h0 : f.pos = 0
    · rw [hwFetchLoop_succ_zero M fuel n s f dest bpos h0] at h
      split at h
      · exact Option.noConfusion h
      · split at h
        · exact Option.noConfusion h
        · rename_i _ s' tr a0 a1 a2 a3 hr _ s2 f3 d3 tr2 hrec
          injection h with h'
          subst h'
          have h1 : countEv isBlockAck tr = 1 :=
            (read128_spec M fuel s (s', tr, a0, a1, a2, a3) hr).choose_spec.choose_spec.2.2.2
          have h2 : countEv isBlockAck tr2 = refillCount 1 n :=
            ih s' ⟨a0, a1, a2, a3, 1⟩ _ (bpos + 1) (s2, f3, d3, tr2) hrec
          show countEv isBlockAck (tr ++ tr2) = refillCount f.pos (n + 1)
          rw [countEv_append, h1, h2, h0]
          simp [refillCount]
    · rw [hwFetchLoop_succ_pos M fuel n s f dest bpos h0] at h
      split at h
      · exact Option.noConfusion h
      · rename_i s2 f3 d3 tr2 hrec
        injection h with h'
        subst h'
        have h2 : countEv isBlockAck tr2 =
            refillCount ((f.pos + 1) % 16) n :=
          ih s ⟨f.w0, f.w1, f.w2, f.w3, (f.pos + 1) % 16⟩ _ (bpos + 1)
            (s2, f3, d3, tr2) hrec
        show countEv isBlockAck tr2 = refillCount f.pos (n + 1)
        rw [h2]
        simp [refillCount, h0]

/-- Closed form for the refill count: the number of multiples of 16 in
`[c, c+n)`, i.e. `ceil((c+n)/16) - ceil(c/16)` for a cursor `c < 16`. -/
lemma refillCount_closed : ∀ (n c : Nat), c < 16 →
    refillCount c n = (c + n + 15) / 16 - (c + 15) / 16 := by
  intro n
  induction n with
  | zero =>
    intro c hc
    simp [refillCount]
  | succ m ih =>
    intro c hc
    have h1 := ih ((c + 1) % 16) (by omega)
    by_cases h0 : c = 0
    · subst h0
      rw [show refillCount 0 (m + 1) = 1 + refillCount ((0 + 1) % 16) m from rfl]
      omega
    · rw [show refillCount c (m + 1) =
          (if c = 0 then 1 else 0) + refillCount ((c + 1) % 16) m from rfl,
        if_neg h0]
      omega

/-! ## The fetch loop against the stream device -/

lemma fifoByte_stream (stream : Nat → Nat → Nat) (d p q : Nat) (hp : p < 16) :
    fifoByte ⟨stream d 0, stream d 1, stream d 2, stream d 3, q⟩ p =
      entropyByte stream (16 * d + p) := by
  unfold fifoByte entropyByte
  have h1 : (16 * d + p) / 16 = d := by omega
  have h2 : (16 * d + p) % 16 = p := by omega
  have h3 : (16 * d + p) % 4 = p % 4 := by omega
  rw [h1, h2, h3]

/-- On the stream device the enable check passes without running the
bring-up sequence. -/
lemma enablePhase_streamDev (stream : Nat → Nat → Nat) (d : Nat) :
    enablePhase (streamDev stream) d = (d, [Ev.read RNG_CONTROL ENABLE_TRNG]) := by
  simp [enablePhase, streamDev, RNG_OUTPUT_0, RNG_OUTPUT_1, RNG_OUTPUT_2,
        RNG_OUTPUT_3, RNG_STATUS, RNG_CONTROL, ENABLE_TRNG]

/-- On the always-ready stream device the poll exits on its first
STATUS read. -/
lemma pollLoop_streamDev (stream : Nat → Nat → Nat) (k d : Nat) :
    pollLoop (streamDev stream) (k + 1) d =
      some (d, [Ev.read RNG_STATUS RNG_READY]) := by
  simp [pollLoop, streamDev, RNG_OUTPUT_0, RNG_OUTPUT_1, RNG_OUTPUT_2,
        RNG_OUTPUT_3, RNG_STATUS, RNG_CONTROL, RNG_READY]

/-- On the always-ready stream device, a block-read with nonzero fuel
returns block `d` and advances the block counter. -/
lemma read128_streamDev (stream : Nat → Nat → Nat) (k d : Nat) :
    eip76d_rng_read128 (streamDev stream) (k + 1) d =
      some (d + 1,
        [Ev.read RNG_CONTROL ENABLE_TRNG, Ev.read RNG_STATUS RNG_READY,
         Ev.read RNG_OUTPUT_0 (stream d 0), Ev.read RNG_OUTPUT_1 (stream d 1),
         Ev.read RNG_OUTPUT_2 (stream d 2), Ev.read RNG_OUTPUT_3 (stream d 3),
         Ev.write RNG_INTACK RNG_READY],
        stream d 0, stream d 1, stream d 2, stream d 3) := by
  simp only [eip76d_rng_read128, enablePhase_streamDev, pollLoop_streamDev]
  simp [streamDev, RNG_OUTPUT_0, RNG_OUTPUT_1, RNG_OUTPUT_2, RNG_OUTPUT_3,
        RNG_STATUS, RNG_CONTROL, RNG_INTACK, RNG_READY, ENABLE_TRNG]

/-- Main stream-device characterization of the fetch loop: from a
well-formed FIFO state it completes, preserves well-formedness,
advances the stream index by exactly the number of bytes produced, and
fills the destination with the consecutive stream bytes starting at
the current stream index. -/
lemma hwFetchLoop_stream (stream : Nat → Nat → Nat) :
    ∀ rem k d f dest bpos, fifoWf stream d f →
      ∃ d' f' dest' tr,
        hwFetchLoop (streamDev stream) (k + 1) rem d f dest bpos =
          some (d', f', dest', tr) ∧
        fifoWf stream d' f' ∧
        gpos d' f' = gpos d f + rem ∧
        ∀ i, i < rem → dest' (bpos + i) = entropyByte stream (gpos d f + i) := by
  intro rem
  induction rem with
  | zero =>
    intro k d f dest bpos hwf
    exact ⟨d, f, dest, [], hwFetchLoop_zero _ _ _ _ _ _, hwf, by omega,
           fun i hi => absurd hi (by omega)⟩
  | succ n ih =>
    intro k d f dest bpos hwf
    obtain ⟨hlt, hbuf⟩ := hwf
    by_cases h0 : f.pos = 0
    · -- cursor 0: refill from block d, then consume byte 0 of block d
      have hwfQ : fifoWf stream (d + 1)
          ⟨stream d 0, stream d 1, stream d 2, stream d 3, 1⟩ :=
        ⟨by show (1 : Nat) < 16; omega, fun _ => ⟨by omega, rfl, rfl, rfl, rfl⟩⟩
      obtain ⟨d', f', dest', tr, hrun, hwf', hg, hbytes⟩ :=
        ih k (d + 1) ⟨stream d 0, stream d 1, stream d 2, stream d 3, 1⟩
          (fun i => if i = bpos then
              fifoByte ⟨stream d 0, stream d 1, stream d 2, stream d 3, 0⟩ 0
            else dest i) (bpos + 1) hwfQ
      have egf : gpos d f = 16 * d := by simp [gpos, h0]
      have egQ : gpos (d + 1)
          ⟨stream d 0, stream d 1, stream d 2, stream d 3, 1⟩ =
          16 * d + 1 := by simp [gpos]
      refine ⟨d', f', dest',
        [Ev.read RNG_CONTROL ENABLE_TRNG, Ev.read RNG_STATUS RNG_READY,
         Ev.read RNG_OUTPUT_0 (stream d 0), Ev.read RNG_OUTPUT_1 (stream d 1),
         Ev.read RNG_OUTPUT_2 (stream d 2), Ev.read RNG_OUTPUT_3 (stream d 3),
         Ev.write RNG_INTACK RNG_READY] ++ tr, ?_, hwf', by omega, ?_⟩
      · rw [hwFetchLoop_succ_zero (streamDev stream) (k + 1) n d f dest bpos h0,
            read128_streamDev stream k d]
        simp [hrun]
      · intro i hi
        rcases i with _ | j
        · have hfr : dest' bpos = (fun i => if i = bpos then
              fifoByte ⟨stream d 0, stream d 1, stream d 2, stream d 3, 0⟩ 0
            else dest i) bpos :=
            hwFetchLoop_frame (streamDev stream) (k + 1) n (d + 1)
              ⟨stream d 0, stream d 1, stream d 2, stream d 3, 1⟩ _
              (bpos + 1) (d', f', dest', tr) hrun bpos (Or.inl (by omega))
          simp only [if_pos] at hfr
          rw [Nat.add_zero, hfr, fifoByte_stream stream d 0 0 (by omega),
              egf, Nat.add_zero]
        · have hb := hbytes j (by omega)
          have e1 : bpos + 1 + j = bpos + (j + 1) := by omega
          have e2 : gpos (d + 1)
              ⟨stream d 0, stream d 1, stream d 2, stream d 3, 1⟩ + j =
              gpos d f + (j + 1) := by omega
          rw [e1, e2] at hb
          exact hb
    · -- cursor nonzero: consume byte `pos` of block `d - 1`
      obtain ⟨hd1, hw0, hw1, hw2, hw3⟩ := hbuf h0
      have hwfQ : fifoWf stream d
          ⟨f.w0, f.w1, f.w2, f.w3, (f.pos + 1) % 16⟩ :=
        ⟨by show (f.pos + 1) % 16 < 16; omega,
         fun _ => ⟨hd1, hw0, hw1, hw2, hw3⟩⟩
      obtain ⟨d', f', dest', tr, hrun, hwf', hg, hbytes⟩ :=
        ih k d ⟨f.w0, f.w1, f.w2, f.w3, (f.pos + 1) % 16⟩
          (fun i => if i = bpos then fifoByte f f.pos else dest i)
          (bpos + 1) hwfQ
      have egf : gpos d f = 16 * (d - 1) + f.pos := by simp [gpos, h0]
      have egQ : gpos d ⟨f.w0, f.w1, f.w2, f.w3, (f.pos + 1) % 16⟩ =
          gpos d f + 1 := by
        simp only [gpos]
        split <;> omega
      have hb : fifoByte f f.pos = entropyByte stream (16 * (d - 1) + f.pos) := by
        have hf : fifoByte f f.pos = fifoByte
            ⟨stream (d - 1) 0, stream (d - 1) 1, stream (d - 1) 2,
             stream (d - 1) 3, 0⟩ f.pos := by
          simp [fifoByte, hw0, hw1, hw2, hw3]
        rw [hf, fifoByte_stream stream (d - 1) f.pos 0 hlt]
      refine ⟨d', f', dest', tr, ?_, hwf', by omega, ?_⟩
      · rw [hwFetchLoop_succ_pos (streamDev stream) (k + 1) n d f dest bpos h0]
        simp [hrun]
      · intro i hi
        rcases i with _ | j
        · have hfr : dest' bpos = (fun i => if i = bpos then
              fifoByte f f.pos else dest i) bpos :=
            hwFetchLoop_frame (streamDev stream) (k + 1) n d
              ⟨f.w0, f.w1, f.w2, f.w3, (f.pos + 1) % 16⟩ _
              (bpos + 1) (d', f', dest', tr) hrun bpos (Or.inl (by omega))
          simp only [if_pos] at hfr
          rw [Nat.add_zero, hfr, hb, egf, Nat.add_zero]
        · have hbj := hbytes j (by omega)
          have e1 : bpos + 1 + j = bpos + (j + 1) := by omega
          have e2 : gpos d ⟨f.w0, f.w1, f.w2, f.w3, (f.pos + 1) % 16⟩ + j =
              gpos d f + (j + 1) := by omega
          rw [e1, e2] at hbj
          exact hbj

/-! ## Claim theorems about hw_get_random_bytes -/

/-- Cursor arithmetic for a completed `hw_get_random_bytes` call. -/
lemma hw_get_pos {σ : Type} (M : DevM σ) (fuel : Nat) (s : σ) (f : FifoState)
    (dest : Nat → Nat) (len : Nat)
    (res : Nat × σ × FifoState × (Nat → Nat) × List Ev)
    (hpos : f.pos < 16)
    (h : hw_get_random_bytes M fuel s f dest len = some res) :
    res.2.2.1.pos = (f.pos + len) % 16 := by
  unfold hw_get_random_bytes at h
  split at h
  · exact Option.noConfusion h
  · rename_i s' f' d' tr heq
    injection h with h'
    subst h'
    exact hwFetchLoop_pos M fuel len s f dest 0 (s', f', d', tr) hpos heq

/-- C9: after a completed `hw_get_random_bytes` call of any length, the
FIFO cursor equals (cursor before + len) mod 16, on any device model,
regardless of how many refills occurred. -/
theorem c9_cursor_mod16 {σ : Type} (M : DevM σ) (fuel : Nat) (s : σ)
    (f : FifoState) (dest : Nat → Nat) (len : Nat)
    (res : Nat × σ × FifoState × (Nat → Nat) × List Ev)
    (hpos : f.pos < 16)
    (h : hw_get_random_bytes M fuel s f dest len = some res) :
    res.2.2.1.pos = (f.pos + len) % 16 :=
  hw_get_pos M fuel s f dest len res hpos h

/-- Witness for C9: fetching 5 bytes from cursor 0 ends at cursor 5. -/
theorem c9_cursor_mod16_witness :
    ∃ res, hw_get_random_bytes (streamDev zeroStream) 1 0 fifoInit
        (fun _ => 0) 5 = some res ∧
      res.2.2.1.pos = (fifoInit.pos + 5) % 16 :=
  ⟨_, rfl, c9_cursor_mod16 (streamDev zeroStream) 1 0 fifoInit (fun _ => 0) 5 _
    (by decide) rfl⟩

/-- C6: the FIFO cursor is in [0, 16) initially; it stays in [0, 16)
after any completed call of any length; and consuming one byte at
cursor 15 wraps the cursor to 0. -/
theorem c6_cursor_invariant {σ : Type} (M : DevM σ) (fuel : Nat) :
    fifoInit.pos < 16 ∧
    (∀ (s : σ) f dest len (res : Nat × σ × FifoState × (Nat → Nat) × List Ev),
      f.pos < 16 → hw_get_random_bytes M fuel s f dest len = some res →
      res.2.2.1.pos < 16) ∧
    (∀ (s : σ) f dest (res : Nat × σ × FifoState × (Nat → Nat) × List Ev),
      f.pos = 15 → hw_get_random_bytes M fuel s f dest 1 = some res →
      res.2.2.1.pos = 0) := by
  refine ⟨by decide, ?_, ?_⟩
  · intro s f dest len res hpos h
    rw [hw_get_pos M fuel s f dest len res hpos h]
    omega
  · intro s f dest res hpos h
    rw [hw_get_pos M fuel s f dest 1 res (by omega) h, hpos]

/-- Witness for C6: one byte consumed at cursor 15 wraps to cursor 0. -/
theorem c6_cursor_invariant_witness :
    ∃ res, hw_get_random_bytes (streamDev zeroStream) 1 1 ⟨0, 0, 0, 0, 15⟩
        (fun _ => 0) 1 = some res ∧ res.2.2.1.pos = 0 :=
  ⟨_, rfl, (c6_cursor_invariant (streamDev zeroStream) 1).2.2 1 ⟨0, 0, 0, 0, 15⟩
    (fun _ => 0) _ (by decide) rfl⟩

/-- C10: a completed `hw_get_random_bytes` call writes only destination
indices [0, len): every destination index `i ≥ len` is unchanged. -/
theorem c10_frame_effect {σ : Type} (M : DevM σ) (fuel : Nat) (s : σ)
    (f : FifoState) (dest : Nat → Nat) (len : Nat)
    (res : Nat × σ × FifoState × (Nat → Nat) × List Ev)
    (h : hw_get_random_bytes M fuel s f dest len = some res) :
    ∀ i, len ≤ i → res.2.2.2.1 i = dest i := by
  unfold hw_get_random_bytes at h
  split at h
  · exact Option.noConfusion h
  · rename_i s' f' d' tr heq
    injection h with h'
    subst h'
    intro i hi
    exact hwFetchLoop_frame M fuel len s f dest 0 (s', f', d', tr) heq i
      (Or.inr (by omega))

/-- Witness for C10: after fetching 3 bytes, destination index 5 still
holds its original value. -/
theorem c10_frame_effect_witness :
    ∃ res, hw_get_random_bytes (streamDev zeroStream) 1 0 fifoInit
        (fun i => i + 100) 3 = some res ∧ res.2.2.2.1 5 = 5 + 100 :=
  ⟨_, rfl, c10_frame_effect (streamDev zeroStream) 1 0 fifoInit
    (fun i => i + 100) 3 _ rfl 5 (by omega)⟩

/-- Witness for C8: a completed 3-byte fetch returns `TEE_SUCCESS`. -/
theorem c8_zero_length_and_success_witness :
    ∃ res, hw_get_random_bytes (streamDev zeroStream) 1 0 fifoInit
        (fun _ => 0) 3 = some res ∧ res.1 = TEE_SUCCESS :=
  ⟨_, rfl, (c8_zero_length_and_success (streamDev zeroStream) 1 0 fifoInit
    (fun _ => 0)).2 3 _ rfl⟩

/-- The mock block of testable property 4: OUTPUT words 0x03020100,
0x07060504, 0x0B0A0908, 0x0F0E0D0C on every refill. -/
def mockStream : Nat → Nat → Nat :=
  fun _ k => word4 0x03020100 0x07060504 0x0B0A0908 0x0F0E0D0C k

/-- C7: the FIFO buffer is the little-endian byte decomposition of the
four output words — byte `4k+j` is bits `8j+7..8j` of word `k` — and a
16-byte fetch from cursor 0 against the mock device returning
OUTPUT_0..3 = 0x03020100, 0x07060504, 0x0B0A0908, 0x0F0E0D0C yields
the bytes 0x00, 0x01, ..., 0x0F in order. -/
theorem c7_fifo_byte_order :
    (∀ (f : FifoState) (k j : Fin 4),
      fifoByte f (4 * k.val + j.val) =
        (word4 f.w0 f.w1 f.w2 f.w3 k.val >>> (8 * j.val)) % 256) ∧
    (∃ res, hw_get_random_bytes (streamDev mockStream) 1 0 fifoInit
        (fun _ => 0) 16 = some res ∧
      ∀ i : Fin 16, res.2.2.2.1 i.val = i.val) := by
  constructor
  · intro f k j
    fin_cases k <;> fin_cases j <;> rfl
  · exact ⟨_, rfl, by decide⟩

/-- Counterexample to C1 as stated: fetching n = 10 bytes from cursor
10 (a well-formed state after one refill and 10 consumed bytes, as in
spec scenario S2) performs exactly 1 block-read, while the claimed
formula ceil((cursor+n)/16) = (10+10+15)/16 demands 2. -/
theorem c1_fifo_conservation_counterexample :
    ∃ res, hw_get_random_bytes (streamDev zeroStream) 1 1 ⟨0, 0, 0, 0, 10⟩
        (fun _ => 0) 10 = some res ∧
      countEv isBlockAck res.2.2.2.2 = 1 ∧
      ¬ countEv isBlockAck res.2.2.2.2 = (10 + 10 + 15) / 16 :=
  ⟨_, rfl, by decide, by decide⟩

/-- C1 (amended): fetching n ≤ 16 bytes from a well-formed FIFO state
with cursor `f.pos` performs exactly
`ceil((cursor+n)/16) - ceil(cursor/16)` block-reads (counted as READY
acknowledgements in the MMIO trace), the bytes delivered are the
consecutive entropy-stream bytes starting at the current stream
position, and the stream position advances by exactly n — so
sequential calls consume disjoint, adjacent stream segments and no
byte of entropy is ever repeated. -/
theorem c1_fifo_conservation (stream : Nat → Nat → Nat) (k d : Nat)
    (f : FifoState) (dest : Nat → Nat) (n : Nat)
    (hn : n ≤ 16) (hwf : fifoWf stream d f) :
    ∃ res, hw_get_random_bytes (streamDev stream) (k + 1) d f dest n =
        some res ∧
      countEv isBlockAck res.2.2.2.2 =
        (f.pos + n + 15) / 16 - (f.pos + 15) / 16 ∧
      (∀ i, i < n → res.2.2.2.1 i = entropyByte stream (gpos d f + i)) ∧
      gpos res.2.1 res.2.2.1 = gpos d f + n := by
  obtain ⟨d', f', dest', tr, hrun, hwf', hg, hbytes⟩ :=
    hwFetchLoop_stream stream n k d f dest 0 hwf
  refine ⟨(TEE_SUCCESS, d', f', dest', tr), ?_, ?_, ?_, ?_⟩
  · unfold hw_get_random_bytes
    rw [hrun]
  · have hc := hwFetchLoop_count (streamDev stream) (k + 1) n d f dest 0
      (d', f', dest', tr) hrun
    show countEv isBlockAck tr = _
    rw [hc, refillCount_closed n f.pos hwf.1]
  · intro i hi
    have hb := hbytes i hi
    rw [Nat.zero_add] at hb
    exact hb
  · exact hg

/-- Witness for (amended) C1: a 5-byte fetch from the initial state. -/
theorem c1_fifo_conservation_witness :
    ∃ res, hw_get_random_bytes (streamDev zeroStream) (0 + 1) 0 fifoInit
        (fun _ => 0) 5 = some res ∧
      countEv isBlockAck res.2.2.2.2 =
        (fifoInit.pos + 5 + 15) / 16 - (fifoInit.pos + 15) / 16 ∧
      (∀ i, i < 5 → res.2.2.2.1 i = entropyByte zeroStream (gpos 0 fifoInit + i)) ∧
      gpos res.2.1 res.2.2.1 = gpos 0 fifoInit + 5 :=
  c1_fifo_conservation zeroStream 0 0 fifoInit (fun _ => 0) 5 (by decide)
    (by decide)
